import Mathlib

/-!
Formal model of the repository's `serialization.py`: the packet wire-format
codec (`Packet.write_pkt_data` / `Packet.recv_pkt_data`), the connection
resolver loop of `IO_Info._connect_sock`, and the channel operations of
`IO_Info`.  Byte strings are lists of naturals, a stream socket is the
schedule of chunks successive `recv` calls can return, and the resolver runs
over an abstract list of resolved candidates.
-/

/-- A byte string; each entry is one byte value. -/
abbrev ByteStr := List Nat

/-- The size of `HEADER_PACKER = Struct("!3I")`: three 4-byte fields. -/
def HEADER_PACKER_size : Nat := 12

/-- Big-endian 4-byte encoding of an unsigned 32-bit value, one `I` field of
`Struct("!3I")`. -/
def be32 (n : Nat) : ByteStr :=
  [n / 16777216 % 256, n / 65536 % 256, n / 256 % 256, n % 256]

/-- Big-endian value of a 4-byte buffer (only ever applied to 4-byte
slices; other shapes are given the junk value 0). -/
def be32val : ByteStr → Nat
  | [b0, b1, b2, b3] => ((b0 * 256 + b1) * 256 + b2) * 256 + b3
  | _ => 0

/-- `HEADER_PACKER.pack(a, b, c)`: the three fields big-endian, or a
`struct.error` (`none`) when a value does not fit in 32 bits. -/
def HEADER_PACKER_pack (a b c : Nat) : Option ByteStr :=
  if a < 4294967296 ∧ b < 4294967296 ∧ c < 4294967296 then
    some (be32 a ++ be32 b ++ be32 c)
  else none

/-- `HEADER_PACKER.unpack(buf)`: a `struct.error` (`none`) unless the buffer
is exactly 12 bytes, otherwise the three big-endian 32-bit fields. -/
def HEADER_PACKER_unpack (buf : ByteStr) : Option (Nat × Nat × Nat) :=
  if buf.length = HEADER_PACKER_size then
    some (be32val (buf.take 4), be32val ((buf.drop 4).take 4), be32val (buf.drop 8))
  else none

/-- `struct.pack(f"{n}s", d)`: the bytes are truncated to `n`, or padded
with zero bytes up to `n`. -/
def pack_s (n : Nat) (d : ByteStr) : ByteStr :=
  d.take n ++ List.replicate (n - d.length) 0

/-- The `Packet` named tuple of `serialization.py`. -/
structure Packet where
  data_len : Nat
  data_type : Nat
  data : ByteStr
deriving DecidableEq

/-- `Packet.write_pkt_data`: the bytes pushed onto the socket by the two
`sendall` calls — the packed header (`HEADER_PACKER.size`, `data_len`,
`data_type`) followed by `pack(f"{data_len}s", data)` — or `none` when the
header fields do not fit in 32 bits (`struct.error`). -/
def Packet.write_pkt_data (p : Packet) : Option ByteStr :=
  (HEADER_PACKER_pack HEADER_PACKER_size p.data_len p.data_type).map
    fun hdr => hdr ++ pack_s p.data_len p.data

/-- A stream socket, modelled as the schedule of byte chunks successive
`recv` calls will see; the empty schedule is a closed or exhausted socket,
on which `recv` returns the empty byte string. -/
abbrev RecvSocket := List ByteStr

/-- `sock.recv(n)`: returns at most `n` bytes — the front of the next
pending chunk — leaving the remainder of that chunk for the next call. -/
def recvOnce (n : Nat) (s : RecvSocket) : ByteStr × RecvSocket :=
  match s with
  | [] => ([], [])
  | c :: rest => (c.take n, if n < c.length then c.drop n :: rest else rest)

/-- `Packet.recv_pkt_data`: one `recv` for the 12 header bytes (a short read
makes `unpack` raise `struct.error`, `none` here), the first unpacked field
discarded, then one `recv` for `data_len` bytes, returned as the packet data
with however many bytes that single `recv` yielded. -/
def Packet.recv_pkt_data (sock : RecvSocket) : Option Packet :=
  let hr := recvOnce HEADER_PACKER_size sock
  match HEADER_PACKER_unpack hr.1 with
  | none => none
  | some (_, data_len, data_type) =>
      some ⟨data_len, data_type, (recvOnce data_len hr.2).1⟩

/-- Encode-then-decode with the whole encoded byte stream available to the
decoder's socket. -/
def roundTrip (p : Packet) : Option Packet :=
  (Packet.write_pkt_data p).bind fun w => Packet.recv_pkt_data [w]

/-- One resolved candidate from `socket.getaddrinfo`: whether
`socket.socket` succeeds for its family/type/protocol, and whether `connect`
to its address succeeds. -/
structure Candidate where
  createOk : Bool
  connectOk : Bool
deriving DecidableEq

/-- The `self._sock` attribute of `IO_Info`: never assigned, `None`, an open
socket (identified by the index of the candidate that produced it), or a
socket object that has been closed. -/
inductive SockSlot
  | unset
  | noneSlot
  | openSock (idx : Nat)
  | closedSock (idx : Nat)
deriving DecidableEq

/-- Exceptions the resolver can raise: an `OSError` recorded while trying
the candidate at `idx` (`atConnect` is true when the socket was created and
`connect` failed, false when creation itself failed), or the
`UnboundLocalError` from evaluating `if err:` when no iteration ever bound
`err`. -/
inductive PyErr
  | osErr (idx : Nat) (atConnect : Bool)
  | unboundLocalError
deriving DecidableEq

/-- Outcome of `IO_Info._connect_sock`: the final `self._sock` slot, the
sockets closed during the loop, the candidates attempted, and the exception
raised (if construction failed). -/
structure ConnResult where
  slot : SockSlot
  closed : List Nat
  attempted : List Nat
  raised : Option PyErr
deriving DecidableEq

/-- The candidate loop of `IO_Info._connect_sock`.  Creation failure records
the error and continues; connect failure closes the just-created socket,
records the error and continues; success adopts the socket and breaks.  When
the loop ends without success, `raise err` re-raises the last recorded error
— or `UnboundLocalError` when no iteration ever assigned `err`. -/
def connectLoop : List Candidate → Nat → SockSlot → List Nat → List Nat →
    Option PyErr → ConnResult
  | [], _, slot, closed, att, lastE =>
      ⟨slot, closed, att, some (lastE.getD PyErr.unboundLocalError)⟩
  | c :: rest, idx, slot, closed, att, _ =>
      if c.createOk then
        if c.connectOk then
          ⟨SockSlot.openSock idx, closed, att ++ [idx], none⟩
        else
          connectLoop rest (idx + 1) (SockSlot.closedSock idx) (closed ++ [idx])
            (att ++ [idx]) (some (PyErr.osErr idx true))
      else
        connectLoop rest (idx + 1) slot closed (att ++ [idx])
          (some (PyErr.osErr idx false))

/-- `IO_Info._connect_sock` over an abstract resolved candidate list. -/
def connectSock (cands : List Candidate) : ConnResult :=
  connectLoop cands 0 SockSlot.unset [] [] none

/-- Observable outcome of `IO_Info.write_pkt_data`. -/
inductive SendOutcome
  | attrError
  | notConnected
  | packError
  | badFd
  | sent (wire : ByteStr)
deriving DecidableEq

/-- `IO_Info.write_pkt_data(data, len, data_type)`: `AttributeError` when
`self._sock` was never assigned; the guard `OSError("socket is not open")`
(`notConnected`) when `self._sock is None`; otherwise
`Packet(len, data_type, data).write_pkt_data(self._sock)` runs —
`struct.error` if the header fields do not pack, an `OSError` on a closed
descriptor (`badFd`) when `sendall` hits an already-closed socket, else the
encoded bytes go out on the wire. -/
def IO_Info.write_pkt_data (slot : SockSlot) (data : ByteStr)
    (len data_type : Nat) : SendOutcome :=
  match slot with
  | SockSlot.unset => SendOutcome.attrError
  | SockSlot.noneSlot => SendOutcome.notConnected
  | SockSlot.closedSock _ =>
      match Packet.write_pkt_data ⟨len, data_type, data⟩ with
      | some _ => SendOutcome.badFd
      | none => SendOutcome.packError
  | SockSlot.openSock _ =>
      match Packet.write_pkt_data ⟨len, data_type, data⟩ with
      | some w => SendOutcome.sent w
      | none => SendOutcome.packError

/-- Outcome flag of `IO_Info.__del__`. -/
inductive DelOutcome
  | ok
  | attrError
deriving DecidableEq

/-- `IO_Info.__del__`: when `self._sock is not None` it calls
`self._sock.close()` and sets the slot to `None`.  The `Bool` records
whether a live descriptor was actually released — calling `close()` on an
already-closed socket object is a no-op.  Touching a never-assigned `_sock`
raises `AttributeError` and changes nothing. -/
def IO_Info.del : SockSlot → SockSlot × Bool × DelOutcome
  | SockSlot.unset => (SockSlot.unset, false, DelOutcome.attrError)
  | SockSlot.noneSlot => (SockSlot.noneSlot, false, DelOutcome.ok)
  | SockSlot.openSock _ => (SockSlot.noneSlot, true, DelOutcome.ok)
  | SockSlot.closedSock _ => (SockSlot.noneSlot, false, DelOutcome.ok)

/-- Errors of the Channel's `receive()`. -/
inductive RecvError
  | notConnected
  | incomplete
deriving DecidableEq

/-- Modelled from the spec: `IO_Info.recv_pkt_data`, the Channel `receive()`
that the repository's tests invoke, is absent from the provided source file.
Per the spec it decodes one Packet from the Connection via the Codec,
accumulating reads until the 12 header bytes and then the declared
`data_len` payload bytes are fully available, reports `Incomplete` when the
connection closes first, and fails `NotConnected` on a Channel without a
live socket.  `pending` is the byte stream the connection delivers before
closure. -/
def IO_Info.recv_pkt_data (slot : SockSlot) (pending : ByteStr) :
    Except RecvError Packet :=
  match slot with
  | SockSlot.openSock _ =>
      if HEADER_PACKER_size ≤ pending.length then
        let hdr := pending.take HEADER_PACKER_size
        let data_len := be32val ((hdr.drop 4).take 4)
        let data_type := be32val (hdr.drop 8)
        let rest := pending.drop HEADER_PACKER_size
        if data_len ≤ rest.length then
          Except.ok ⟨data_len, data_type, rest.take data_len⟩
        else Except.error RecvError.incomplete
      else Except.error RecvError.incomplete
  | _ => Except.error RecvError.notConnected

/-- Expected `self._sock` slot after a prefix of candidates that all fail:
each candidate that managed to create a socket leaves that (closed) socket
object in the slot. -/
def slotFails (idx : Nat) (pre : List Candidate) (s : SockSlot) : SockSlot :=
  match pre with
  | [] => s
  | c :: r =>
      slotFails (idx + 1) r (if c.createOk then SockSlot.closedSock idx else s)

/-- Indices of the sockets closed while a prefix of candidates all fail: the
candidates whose socket was created (and whose `connect` therefore failed). -/
def closedFails (idx : Nat) : List Candidate → List Nat
  | [] => []
  | c :: r => (if c.createOk then [idx] else []) ++ closedFails (idx + 1) r

/-- Last error recorded while a prefix of candidates all fail. -/
def lastFails (idx : Nat) (pre : List Candidate) (e : Option PyErr) :
    Option PyErr :=
  match pre with
  | [] => e
  | c :: r => lastFails (idx + 1) r (some (PyErr.osErr idx c.createOk))

lemma be32val_be32 {n : Nat} (h : n < 4294967296) : be32val (be32 n) = n := by
  simp only [be32, be32val]
  omega

lemma be32_length (n : Nat) : (be32 n).length = 4 := rfl

lemma pack_s_exact (d : ByteStr) : pack_s d.length d = d := by
  simp [pack_s]

lemma pack_s_length (n : Nat) (d : ByteStr) : (pack_s n d).length = n := by
  simp only [pack_s, List.length_append, List.length_take, List.length_replicate]
  omega

lemma write_pkt_data_eq (p : Packet) (h1 : p.data_len < 4294967296)
    (h2 : p.data_type < 4294967296) :
    Packet.write_pkt_data p =
      some (be32 12 ++ be32 p.data_len ++ be32 p.data_type ++ pack_s p.data_len p.data) := by
  simp only [Packet.write_pkt_data, HEADER_PACKER_pack, HEADER_PACKER_size]
  rw [if_pos ⟨by norm_num, h1, h2⟩]
  simp [List.append_assoc]

lemma recv_pkt_data_cons4 (a rest : ByteStr) (h : a.length = 4) :
    Packet.recv_pkt_data [a ++ rest] =
      if 8 ≤ rest.length then
        some ⟨be32val (rest.take 4), be32val ((rest.drop 4).take 4),
              (rest.drop 8).take (be32val (rest.take 4))⟩
      else none := by
  rcases a with _ | ⟨a0, _ | ⟨a1, _ | ⟨a2, _ | ⟨a3, _ | ⟨a4, t⟩⟩⟩⟩⟩ <;> simp at h
  by_cases hr : 8 ≤ rest.length
  · rw [if_pos hr]
    simp only [Packet.recv_pkt_data, recvOnce, HEADER_PACKER_size,
      HEADER_PACKER_unpack, List.cons_append, List.nil_append]
    have htk : List.take 12 (a0 :: a1 :: a2 :: a3 :: rest) =
        a0 :: a1 :: a2 :: a3 :: rest.take 8 := by
      simp [List.take_succ_cons]
    have hlen : (List.take 12 (a0 :: a1 :: a2 :: a3 :: rest)).length = 12 := by
      rw [htk]
      simp [List.length_take]
      omega
    rw [htk] at hlen ⊢
    rw [if_pos hlen]
    have hf2 : ((a0 :: a1 :: a2 :: a3 :: rest.take 8).drop 4).take 4 = rest.take 4 := by
      simp [List.drop_succ_cons, List.take_take]
    have hf3 : (a0 :: a1 :: a2 :: a3 :: rest.take 8).drop 8 = (rest.drop 4).take 4 := by
      simp [List.drop_succ_cons, List.drop_take]
    rw [hf2, hf3]
    have hlen2 : (a0 :: a1 :: a2 :: a3 :: rest).length = 4 + rest.length := by
      simp; omega
    by_cases hr2 : 8 < rest.length
    · rw [hlen2, if_pos (by omega)]
      have hdr12 : List.drop 12 (a0 :: a1 :: a2 :: a3 :: rest) = rest.drop 8 := by
        simp [List.drop_succ_cons]
      rw [hdr12]
    · have h8 : rest.length = 8 := by omega
      rw [hlen2, if_neg (by omega)]
      simp only [recvOnce]
      have : rest.drop 8 = [] := by
        rw [← h8, List.drop_length]
      rw [this]
      simp
  · rw [if_neg hr]
    simp only [Packet.recv_pkt_data, recvOnce, HEADER_PACKER_size,
      HEADER_PACKER_unpack, List.cons_append, List.nil_append]
    have hlen : (List.take 12 (a0 :: a1 :: a2 :: a3 :: rest)).length ≠ 12 := by
      simp [List.length_take]
      omega
    rw [if_neg hlen]

lemma recv_pkt_data_encoded (a : ByteStr) (dl dt : Nat) (payload : ByteStr)
    (ha : a.length = 4) (hdl : payload.length = dl)
    (h1 : dl < 4294967296) (h2 : dt < 4294967296) :
    Packet.recv_pkt_data [a ++ (be32 dl ++ (be32 dt ++ payload))] =
      some ⟨dl, dt, payload⟩ := by
  rw [recv_pkt_data_cons4 _ _ ha]
  have hlen : (be32 dl ++ (be32 dt ++ payload)).length = 8 + payload.length := by
    simp [be32]
    omega
  rw [if_pos (by omega)]
  have ht4 : (be32 dl ++ (be32 dt ++ payload)).take 4 = be32 dl :=
    List.take_left' (be32_length dl)
  have hd4 : (be32 dl ++ (be32 dt ++ payload)).drop 4 = be32 dt ++ payload :=
    List.drop_left' (be32_length dl)
  have ht8 : ((be32 dl ++ (be32 dt ++ payload)).drop 4).take 4 = be32 dt := by
    rw [hd4]
    exact List.take_left' (be32_length dt)
  have hd8 : (be32 dl ++ (be32 dt ++ payload)).drop 8 = payload := by
    have : (8 : Nat) = 4 + 4 := rfl
    rw [this, ← List.drop_drop, hd4]
    exact List.drop_left' (be32_length dt)
  rw [ht4, ht8, hd8, be32val_be32 h1, be32val_be32 h2, ← hdl, List.take_length]

/-- Claim C1: codec round-trip.  For every `data_type` in unsigned 32-bit
range and every byte payload (whose length fits the 32-bit `data_len`
field, as encoding is defined only there), decoding the byte stream
produced by encoding `Packet(len(payload), data_type, payload)` yields a
`Packet` equal to `Packet(len(payload), data_type, payload)`. -/
theorem codec_round_trip (dt : Nat) (payload : ByteStr)
    (h1 : dt < 4294967296) (h2 : payload.length < 4294967296) :
    roundTrip ⟨payload.length, dt, payload⟩ = some ⟨payload.length, dt, payload⟩ := by
  unfold roundTrip
  rw [write_pkt_data_eq ⟨payload.length, dt, payload⟩ h2 h1]
  show Packet.recv_pkt_data [be32 12 ++ be32 payload.length ++ be32 dt ++
    pack_s payload.length payload] = _
  rw [pack_s_exact, List.append_assoc, List.append_assoc]
  exact recv_pkt_data_encoded (be32 12) payload.length dt payload rfl rfl h2 h1

/-- Witness for C1 at `Packet(5, 99, b"hello")`. -/
theorem codec_round_trip_witness :
    roundTrip ⟨5, 99, [104, 101, 108, 108, 111]⟩ =
      some ⟨5, 99, [104, 101, 108, 108, 111]⟩ :=
  codec_round_trip 99 [104, 101, 108, 108, 111] (by decide) (by decide)

/-- Claim C2: encode wire layout.  For every `Packet` whose `data_len`
equals `len(data)` (header fields in 32-bit range), encoding emits exactly
`12 + len(data)` bytes: the three unsigned 32-bit big-endian fields
`header_size` (constant 12), `data_len`, `data_type` in that order,
followed by the payload bytes unchanged; in particular encoding
`Packet(5, 99, b"hello")` yields the 17-byte sequence
`00 00 00 0C 00 00 00 05 00 00 00 63 68 65 6C 6C 6F`. -/
theorem encode_wire_layout (p : Packet) (h0 : p.data_len = p.data.length)
    (h1 : p.data_len < 4294967296) (h2 : p.data_type < 4294967296) :
    Packet.write_pkt_data p =
        some (be32 12 ++ be32 p.data_len ++ be32 p.data_type ++ p.data) ∧
      (be32 12 ++ be32 p.data_len ++ be32 p.data_type ++ p.data).length =
        12 + p.data.length ∧
      Packet.write_pkt_data ⟨5, 99, [104, 101, 108, 108, 111]⟩ =
        some [0, 0, 0, 12, 0, 0, 0, 5, 0, 0, 0, 99, 104, 101, 108, 108, 111] := by
  refine ⟨?_, ?_, by decide⟩
  · rw [write_pkt_data_eq p h1 h2, h0, pack_s_exact]
  · simp [be32]
    omega

/-- Witness for C2 at `Packet(5, 99, b"hello")`. -/
theorem encode_wire_layout_witness :
    Packet.write_pkt_data ⟨5, 99, [104, 101, 108, 108, 111]⟩ =
        some (be32 12 ++ be32 5 ++ be32 99 ++ [104, 101, 108, 108, 111]) ∧
      (be32 12 ++ be32 5 ++ be32 99 ++ [104, 101, 108, 108, 111]).length = 12 + 5 ∧
      Packet.write_pkt_data ⟨5, 99, [104, 101, 108, 108, 111]⟩ =
        some [0, 0, 0, 12, 0, 0, 0, 5, 0, 0, 0, 99, 104, 101, 108, 108, 111] :=
  encode_wire_layout ⟨5, 99, [104, 101, 108, 108, 111]⟩ rfl (by decide) (by decide)

/-- Claim C3 (code bug): partial-read handling.  `Packet.recv_pkt_data`
does not accumulate reads.  On a source that delivers the header for
`Packet(5, 99, b"hello")` whole but the payload split as `b"hel"` then
`b"lo"`, the code returns a `Packet` whose data (3 bytes) is shorter than
its `data_len` (5), with the remaining bytes still pending — instead of
retrying the read or reporting an `Incomplete` error as the claim
requires. -/
theorem decode_single_recv_returns_short_packet :
    Packet.recv_pkt_data [[0, 0, 0, 12, 0, 0, 0, 5, 0, 0, 0, 99],
        [104, 101, 108], [108, 111]] =
      some ⟨5, 99, [104, 101, 108]⟩ ∧
      ([104, 101, 108] : ByteStr).length < 5 := by decide

/-- Claim C9: decoder independence from `header_size`.  Two encoded byte
streams that differ only in their first 4 header bytes decode to equal
results, and no value of those 4 bytes makes the decoder reject a stream
that carries the remaining 8 header bytes: the field is read but never
influences the decoded `data_len`, `data_type` or payload. -/
theorem decoder_header_size_independent (a b rest : ByteStr)
    (ha : a.length = 4) (hb : b.length = 4) (hrest : 8 ≤ rest.length) :
    Packet.recv_pkt_data [a ++ rest] = Packet.recv_pkt_data [b ++ rest] ∧
      (Packet.recv_pkt_data [a ++ rest]).isSome = true := by
  rw [recv_pkt_data_cons4 a rest ha, recv_pkt_data_cons4 b rest hb, if_pos hrest]
  exact ⟨rfl, rfl⟩

/-- Witness for C9: `header_size` bytes `09 09 09 09` versus the fixed
`00 00 00 0C`, over the same `data_len = 2`, `data_type = 7` tail. -/
theorem decoder_header_size_independent_witness :
    Packet.recv_pkt_data [[9, 9, 9, 9] ++ [0, 0, 0, 2, 0, 0, 0, 7, 5, 6]] =
        Packet.recv_pkt_data [[0, 0, 0, 12] ++ [0, 0, 0, 2, 0, 0, 0, 7, 5, 6]] ∧
      (Packet.recv_pkt_data [[9, 9, 9, 9] ++ [0, 0, 0, 2, 0, 0, 0, 7, 5, 6]]).isSome =
        true :=
  decoder_header_size_independent [9, 9, 9, 9] [0, 0, 0, 12]
    [0, 0, 0, 2, 0, 0, 0, 7, 5, 6] rfl rfl (by decide)

/-- Claim C10: encode normalises to `data_len` even when the
semantic-validity precondition `data_len == len(data)` is violated.  For
every `Packet` with in-range header fields, encoding emits exactly
`12 + data_len` bytes with no error raised: the payload section is
`data` truncated to the first `data_len` bytes and zero-padded up to
`data_len` bytes. -/
theorem encode_pads_or_truncates (p : Packet)
    (h1 : p.data_len < 4294967296) (h2 : p.data_type < 4294967296) :
    Packet.write_pkt_data p =
        some (be32 12 ++ be32 p.data_len ++ be32 p.data_type ++
          (p.data.take p.data_len ++ List.replicate (p.data_len - p.data.length) 0)) ∧
      (be32 12 ++ be32 p.data_len ++ be32 p.data_type ++
        (p.data.take p.data_len ++ List.replicate (p.data_len - p.data.length) 0)).length =
        12 + p.data_len := by
  constructor
  · rw [write_pkt_data_eq p h1 h2]
    rfl
  · simp [be32, List.length_take]
    omega

/-- Witness for C10 at `Packet(5, 7, b"\x01\x02")`: two payload bytes are
padded with three zero bytes up to `data_len = 5`. -/
theorem encode_pads_or_truncates_witness :
    Packet.write_pkt_data ⟨5, 7, [1, 2]⟩ =
        some (be32 12 ++ be32 5 ++ be32 7 ++
          ([1, 2].take 5 ++ List.replicate (5 - [1, 2].length) 0)) ∧
      (be32 12 ++ be32 5 ++ be32 7 ++
        ([1, 2].take 5 ++ List.replicate (5 - [1, 2].length) 0)).length = 12 + 5 :=
  encode_pads_or_truncates ⟨5, 7, [1, 2]⟩ (by decide) (by decide)

/-- Claim C7 (spec-modelled receive): on a Channel with a live Connection,
`receive` returns the one `Packet` decoded from the bytes that Connection
delivers — here the full encoded packet — via the Codec. -/
theorem channel_receive_decodes (i dt : Nat) (payload : ByteStr)
    (h1 : dt < 4294967296) (h2 : payload.length < 4294967296) :
    (Packet.write_pkt_data ⟨payload.length, dt, payload⟩).map
        (IO_Info.recv_pkt_data (SockSlot.openSock i)) =
      some (Except.ok ⟨payload.length, dt, payload⟩) := by
  rw [write_pkt_data_eq ⟨payload.length, dt, payload⟩ h2 h1]
  show some (IO_Info.recv_pkt_data (SockSlot.openSock i)
    (be32 12 ++ be32 payload.length ++ be32 dt ++ pack_s payload.length payload)) = _
  rw [pack_s_exact]
  have h12 : (be32 12 ++ be32 payload.length ++ be32 dt).length = 12 := rfl
  simp only [IO_Info.recv_pkt_data, HEADER_PACKER_size]
  rw [List.append_assoc, List.append_assoc]
  have hlen : (be32 12 ++ (be32 payload.length ++ (be32 dt ++ payload))).length =
      12 + payload.length := by
    simp [be32]
    omega
  rw [if_pos (by omega)]
  have htk : (be32 12 ++ (be32 payload.length ++ (be32 dt ++ payload))).take 12 =
      be32 12 ++ be32 payload.length ++ be32 dt := by
    rw [show (be32 12 ++ (be32 payload.length ++ (be32 dt ++ payload))) =
      (be32 12 ++ be32 payload.length ++ be32 dt) ++ payload by
        simp [List.append_assoc]]
    exact List.take_left' h12
  have hdp : (be32 12 ++ (be32 payload.length ++ (be32 dt ++ payload))).drop 12 =
      payload := by
    rw [show (be32 12 ++ (be32 payload.length ++ (be32 dt ++ payload))) =
      (be32 12 ++ be32 payload.length ++ be32 dt) ++ payload by
        simp [List.append_assoc]]
    exact List.drop_left' h12
  rw [htk, hdp]
  have hf2 : ((be32 12 ++ be32 payload.length ++ be32 dt).drop 4).take 4 =
      be32 payload.length := by
    rw [List.append_assoc, List.drop_left' (be32_length 12)]
    exact List.take_left' (be32_length payload.length)
  have hf3 : (be32 12 ++ be32 payload.length ++ be32 dt).drop 8 = be32 dt := by
    have : (8 : Nat) = 4 + 4 := rfl
    rw [this, ← List.drop_drop, List.append_assoc, List.drop_left' (be32_length 12)]
    exact List.drop_left' (be32_length payload.length)
  rw [hf2, hf3, be32val_be32 h2, be32val_be32 h1]
  rw [if_pos (Nat.le_refl _), List.take_length]

/-- Witness for C7 at `Packet(5, 99, b"hello")` on socket 0. -/
theorem channel_receive_decodes_witness :
    (Packet.write_pkt_data ⟨5, 99, [104, 101, 108, 108, 111]⟩).map
        (IO_Info.recv_pkt_data (SockSlot.openSock 0)) =
      some (Except.ok ⟨5, 99, [104, 101, 108, 108, 111]⟩) :=
  channel_receive_decodes 0 99 [104, 101, 108, 108, 111] (by decide) (by decide)

lemma connectLoop_failing_front (pre : List Candidate)
    (h : ∀ c ∈ pre, c.createOk = false ∨ c.connectOk = false) :
    ∀ (rest : List Candidate) (idx : Nat) (slot : SockSlot)
      (closed att : List Nat) (lastE : Option PyErr),
    connectLoop (pre ++ rest) idx slot closed att lastE =
      connectLoop rest (idx + pre.length) (slotFails idx pre slot)
        (closed ++ closedFails idx pre) (att ++ List.range' idx pre.length)
        (lastFails idx pre lastE) := by
  induction pre with
  | nil =>
    intro rest idx slot closed att lastE
    simp [slotFails, closedFails, lastFails, List.range']
  | cons c r ih =>
    intro rest idx slot closed att lastE
    have hc := h c (List.mem_cons_self c r)
    have hr : ∀ x ∈ r, x.createOk = false ∨ x.connectOk = false :=
      fun x hx => h x (List.mem_cons_of_mem c hx)
    cases hcr : c.createOk with
    | false =>
      rw [List.cons_append]
      show connectLoop (c :: (r ++ rest)) idx slot closed att lastE = _
      rw [connectLoop]
      rw [if_neg (by simp [hcr])]
      rw [ih hr rest (idx + 1) slot closed (att ++ [idx])
        (some (PyErr.osErr idx false))]
      congr 1
      · simp [List.length_cons]
        omega
      · simp [slotFails, hcr]
      · simp [closedFails, hcr]
      · simp only [List.length_cons, List.range'_succ]
        simp [List.append_assoc]
      · simp [lastFails, hcr]
    | true =>
      have hco : c.connectOk = false := by
        rcases hc with h' | h'
        · rw [hcr] at h'
          exact absurd h' (by simp)
        · exact h'
      rw [List.cons_append]
      show connectLoop (c :: (r ++ rest)) idx slot closed att lastE = _
      rw [connectLoop]
      rw [if_pos hcr, if_neg (by simp [hco])]
      rw [ih hr rest (idx + 1) (SockSlot.closedSock idx) (closed ++ [idx])
        (att ++ [idx]) (some (PyErr.osErr idx true))]
      congr 1
      · simp [List.length_cons]
        omega
      · simp [slotFails, hcr]
      · simp [closedFails, hcr]
      · simp only [List.length_cons, List.range'_succ]
        simp [List.append_assoc]
      · simp [lastFails, hcr]

/-- Claim C4: resolver fallback with first-success-wins.  For every
resolved candidate list in which each candidate before position `k` fails
at socket creation or at connect and the candidate at position `k`
connects, construction adopts candidate `k`'s socket, the sockets closed
are exactly those created for failed earlier candidates (`closedFails`),
the attempted candidates are exactly positions `0..k`, and no exception is
raised. -/
theorem resolver_first_success (pre post : List Candidate) (c : Candidate)
    (hpre : ∀ x ∈ pre, x.createOk = false ∨ x.connectOk = false)
    (hcr : c.createOk = true) (hco : c.connectOk = true) :
    connectSock (pre ++ c :: post) =
      ⟨SockSlot.openSock pre.length, closedFails 0 pre,
        List.range (pre.length + 1), none⟩ := by
  unfold connectSock
  rw [connectLoop_failing_front pre hpre (c :: post) 0 SockSlot.unset [] [] none]
  rw [connectLoop]
  rw [if_pos hcr, if_pos hco]
  rw [List.range_succ, List.range_eq_range']
  simp

/-- Witness for C4: first candidate fails at creation, second is created
but fails at connect (its socket is closed), third connects; the fourth is
never attempted. -/
theorem resolver_first_success_witness :
    connectSock ([⟨false, true⟩, ⟨true, false⟩] ++ ⟨true, true⟩ :: [⟨true, true⟩]) =
      ⟨SockSlot.openSock 2, closedFails 0 [⟨false, true⟩, ⟨true, false⟩],
        List.range 3, none⟩ :=
  resolver_first_success [⟨false, true⟩, ⟨true, false⟩] [⟨true, true⟩] ⟨true, true⟩
    (by decide) rfl rfl

/-- Claim C5 (code bug): resolver exhaustion at the empty candidate list.
Construction fails — but by raising `UnboundLocalError` from the
`if err:` test, since no iteration ever bound `err`, not by raising a
recorded most-recent connection error; `self._sock` is left unset.  (For a
nonempty all-failing list, `lastFails`/`connectLoop_failing_front` show the
code does raise the most recent recorded `OSError`.) -/
theorem resolver_exhaustion_empty_unbound_local :
    connectSock [] =
      ⟨SockSlot.unset, [], [], some PyErr.unboundLocalError⟩ := rfl

/-- Claim C6, counterexample: a Channel whose construction failed (single
candidate created a socket but could not connect, so the slot still holds
the closed socket object) does not fail with `NotConnected` on send — the
`self._sock is None` guard does not fire, and the failure surfaces from
`sendall` on a closed descriptor instead. -/
theorem channel_send_after_failed_construction_not_notConnected :
    (connectSock [⟨true, false⟩]).raised = some (PyErr.osErr 0 true) ∧
      IO_Info.write_pkt_data (connectSock [⟨true, false⟩]).slot [] 0 0 ≠
        SendOutcome.notConnected := by decide

/-- Claim C6 as amended: invoking send on a Channel whose Connection has
been closed by teardown (socket slot set to `None`) fails immediately with
the `NotConnected` error (`OSError("socket is not open")`), for every
payload and header arguments; it neither blocks nor crashes. -/
theorem channel_send_closed_raises_notConnected (data : ByteStr)
    (len data_type : Nat) :
    IO_Info.write_pkt_data SockSlot.noneSlot data len data_type =
      SendOutcome.notConnected := rfl

/-- Claim C8: teardown idempotence.  From every Channel state, running
teardown twice leaves the same socket slot as running it once, the second
invocation never closes a descriptor, and across the two runs at most one
live descriptor is released. -/
theorem teardown_idempotent (s : SockSlot) :
    (IO_Info.del (IO_Info.del s).1).1 = (IO_Info.del s).1 ∧
      (IO_Info.del (IO_Info.del s).1).2.1 = false ∧
      (cond (IO_Info.del s).2.1 1 0 + cond (IO_Info.del (IO_Info.del s).1).2.1 1 0 ≤ 1) := by
  cases s <;> simp [IO_Info.del]
